import Mathlib

/-!
Shallow embedding of the shelf-label detection module
(`models/label_detector.py`) and of the OCR wrapper
(`models/ocr_with_label_detection.py`).

Conventions of the embedding:
* Python floats are modelled as exact rationals (`ℚ`); decimal literals
  such as `0.05` or `0.2` denote the exact decimal value.
* Pixel coordinates and sizes coming from `cv2.boundingRect` are natural
  numbers; Python `//` on them is `Nat` division.
* Quantities produced by OpenCV / NumPy library calls on the image
  (`np.mean(roi_gray)`, the Canny edge density of a region, the list of
  contour bounding boxes) are opaque inputs of the model: each contour
  carries its bounding box together with the brightness and edge-density
  measurements the library would report for it.
* A Python exception is a `PyError`: the class name and the message.
  A function that can raise returns `Except PyError _`.
-/

/-- Constructor parameters of `LabelDetector.__init__`. -/
structure DetectorConfig where
  min_aspect_ratio : ℚ
  max_aspect_ratio : ℚ
  min_width : ℕ
  min_height : ℕ
  max_width_ratio : ℚ
  bottom_region_ratio : ℚ
  confidence_threshold : ℚ
deriving Repr, DecidableEq

/-- The default parameters of `LabelDetector()`. -/
def defaultConfig : DetectorConfig :=
  { min_aspect_ratio := 2.5
    max_aspect_ratio := 10.0
    min_width := 100
    min_height := 20
    max_width_ratio := 0.9
    bottom_region_ratio := 0.6
    confidence_threshold := 0.5 }

/-- One contour found by `cv2.findContours`, as the model sees it: the
bounding rectangle `(x, y, w, h)` from `cv2.boundingRect`, plus the two
measurements the library computes on the corresponding region of
interest — `np.mean(roi_gray)` and the fraction of Canny edge pixels
`np.sum(edges_roi > 0) / (w * h)`. -/
structure Contour where
  x : ℕ
  y : ℕ
  w : ℕ
  h : ℕ
  meanBrightness : ℚ
  edgeDensity : ℚ
deriving Repr, DecidableEq

/-- One entry of the list returned by `detect_shelf_labels`: the dict
with keys `bbox`, `confidence`, `area`, `center`, `aspect_ratio`. -/
structure LabelCandidate where
  bbox : ℕ × ℕ × ℕ × ℕ
  confidence : ℚ
  area : ℕ
  center : ℕ × ℕ
  aspect_ratio : ℚ
deriving Repr, DecidableEq

/-- `aspect_ratio = w / h if h > 0 else 0` (line 93 of the source). -/
def aspectRatioOf (w h : ℕ) : ℚ :=
  if 0 < h then (w : ℚ) / (h : ℚ) else 0

/-- `LabelDetector._is_valid_label`.  The checks run in source order:
size, aspect ratio, relative width, vertical position.  The local
`bottom_region_start = img_height * (1 - bottom_region_ratio)` computed
at line 142 of the source is never used; the position check uses the
fixed `img_height * 0.2` band. -/
def is_valid_label (cfg : DetectorConfig) (x y w h : ℕ) (aspect_ratio : ℚ)
    (img_width img_height : ℕ) : Bool :=
  if w < cfg.min_width ∨ h < cfg.min_height then false
  else if aspect_ratio < cfg.min_aspect_ratio ∨ cfg.max_aspect_ratio < aspect_ratio then false
  else if (img_width : ℚ) * cfg.max_width_ratio < (w : ℚ) then false
  else if (y : ℚ) < (img_height : ℚ) * 0.2 then false
  else true

/-- `LabelDetector._calculate_confidence`.  The brightness measurement
`np.mean(roi_gray)` and the edge density of the region are passed in as
`meanBrightness` and `edgeDensity` (they are library computations on the
image).  Everything else is the source arithmetic: Python `//` on the
pixel coordinates is `Nat` division, true division is division in `ℚ`. -/
def calculate_confidence (x y w h : ℕ) (aspect_ratio : ℚ)
    (img_width img_height : ℕ) (meanBrightness edgeDensity : ℚ) : ℚ :=
  let ratio_score : ℚ := 1 - min (|aspect_ratio - 5.0| / 5.0) 1
  let brightness_score : ℚ := min (meanBrightness / 200.0) 1
  let edge_score : ℚ := max 0 (min (1 - |edgeDensity - 0.15| / 0.15) 1)
  let vertical_position : ℚ := ((y + h / 2 : ℕ) : ℚ) / (img_height : ℚ)
  let position_score : ℚ :=
    if 0.5 ≤ vertical_position ∧ vertical_position ≤ 0.9 then 1 else 0.5
  let horizontal_position : ℚ := ((x + w / 2 : ℕ) : ℚ) / (img_width : ℚ)
  let h_position_score : ℚ :=
    if 0.1 ≤ horizontal_position ∧ horizontal_position ≤ 0.9 then 1 else 0.5
  min (ratio_score * 0.3 + brightness_score * 0.2 + edge_score * 0.2 +
       position_score * 0.15 + h_position_score * 0.15) 1

/-- Body of the contour loop of `detect_shelf_labels` (lines 88–116):
compute the features of the bounding box, drop the box if
`_is_valid_label` rejects it, compute the confidence, drop the box if
the confidence is below the threshold, otherwise build the result
dict. -/
def candidateOfContour (cfg : DetectorConfig) (img_width img_height : ℕ)
    (c : Contour) : Option LabelCandidate :=
  let aspect_ratio := aspectRatioOf c.w c.h
  let area := c.w * c.h
  let center_x := c.x + c.w / 2
  let center_y := c.y + c.h / 2
  if ¬ is_valid_label cfg c.x c.y c.w c.h aspect_ratio img_width img_height then
    none
  else
    let confidence := calculate_confidence c.x c.y c.w c.h aspect_ratio
      img_width img_height c.meanBrightness c.edgeDensity
    if confidence < cfg.confidence_threshold then none
    else some
      { bbox := (c.x, c.y, c.w, c.h)
        confidence := confidence
        area := area
        center := (center_x, center_y)
        aspect_ratio := aspect_ratio }

/-- The order used by `label_candidates.sort(key=..., reverse=True)`:
descending confidence.  The Python sort is stable; `List.insertionSort`
with this relation (which holds on ties) is the stable descending
sort. -/
def confGE (a b : LabelCandidate) : Prop :=
  b.confidence ≤ a.confidence

instance : DecidableRel confGE :=
  fun a b => inferInstanceAs (Decidable (b.confidence ≤ a.confidence))

instance : IsTotal LabelCandidate confGE :=
  ⟨fun a b => le_total b.confidence a.confidence⟩

instance : IsTrans LabelCandidate confGE :=
  ⟨fun _ _ _ hab hbc => le_trans hbc hab⟩

/-- The contour-processing part of `detect_shelf_labels`: filter and
score the contours in order, then sort by confidence, highest first
(stable). -/
def detectCore (cfg : DetectorConfig) (img_width img_height : ℕ)
    (contours : List Contour) : List LabelCandidate :=
  List.insertionSort confGE
    (contours.filterMap (candidateOfContour cfg img_width img_height))

/-- A raised Python exception: class name and message.  `ValueError`
becomes `cls = "ValueError"`; `str(e)` of such an exception is `msg`. -/
structure PyError where
  cls : String
  msg : String
deriving Repr, DecidableEq

/-- What `cv2.imread` followed by the preprocessing steps yields when the
image can be decoded: the image dimensions and the contours (with their
per-region measurements).  `cv2.imread` returning `None` is modelled by
`Option.none` at the call site. -/
structure DecodedImage where
  width : ℕ
  height : ℕ
  contours : List Contour
deriving Repr, DecidableEq

/-- `LabelDetector.detect_shelf_labels`: if `cv2.imread` returns `None`
the function raises `ValueError(f"Could not read image: {image_path}")`;
otherwise it runs the contour pipeline and returns the sorted candidate
list. -/
def detect_shelf_labels (cfg : DetectorConfig) (img : Option DecodedImage)
    (image_path : String) : Except PyError (List LabelCandidate) :=
  match img with
  | none => .error ⟨"ValueError", "Could not read image: " ++ image_path⟩
  | some im => .ok (detectCore cfg im.width im.height im.contours)

/-- Module-level convenience function `detect_labels`: build a
`LabelDetector()` with the default parameters and call
`detect_shelf_labels`.  Nothing is caught: an exception from
`detect_shelf_labels` propagates to the caller. -/
def detect_labels (img : Option DecodedImage) (image_path : String) :
    Except PyError (List LabelCandidate) :=
  detect_shelf_labels defaultConfig img image_path

/-- CPython `max(items, key=f)` over a nonempty list, given as head and
tail: the current best is replaced only when the new key is strictly
greater, so the first element attaining the maximum is returned. -/
def pyMaxBy (key : LabelCandidate → ℕ) (a : LabelCandidate)
    (l : List LabelCandidate) : LabelCandidate :=
  l.foldl (fun best c => if key best < key c then c else best) a

/-- CPython `min(items, key=f)` over a nonempty list, given as head and
tail: the current best is replaced only when the new key is strictly
smaller, so the first element attaining the minimum is returned. -/
def pyMinBy (key : LabelCandidate → ℕ) (a : LabelCandidate)
    (l : List LabelCandidate) : LabelCandidate :=
  l.foldl (fun best c => if key c < key best then c else best) a

/-- Key of the center-strategy branch: the distance
`abs(x[center][0] - img_center_x)` where `img_center_x` is the first
candidate center x-coordinate (`labels[0][center][0]`, line 258 of
the source). -/
def centerKey (pivot : ℕ) (c : LabelCandidate) : ℕ :=
  ((c.center.1 : ℤ) - (pivot : ℤ)).natAbs

/-- `LabelDetector.get_best_label`. -/
def get_best_label (labels : List LabelCandidate) (strategy : String) :
    Option LabelCandidate :=
  match labels with
  | [] => none
  | a :: rest =>
    if strategy = "largest" then
      some (pyMaxBy (fun c => c.area) a rest)
    else if strategy = "most_confident" then
      some a
    else if strategy = "center" then
      some (pyMinBy (centerKey a.center.1) a rest)
    else
      some a

/-- Result of `crop_to_label`: `x0, y0` are the Python variables `x, y`
after padding and clamping (the top-left corner of the slice), and
`width, height` are the realized dimensions of the NumPy slice
`image[y:y+h, x:x+w]` on an image of the given size.  Basic NumPy
slicing never raises: a start or stop beyond the axis is clipped and an
empty range yields an empty array. -/
structure CropResult where
  x0 : ℤ
  y0 : ℤ
  width : ℤ
  height : ℤ
deriving Repr, DecidableEq

/-- Length of the NumPy basic slice `a[s:t]` on an axis of length `n`,
for non-negative `s` and `t` (the only case `crop_to_label` produces):
both bounds are clipped to `n` and an empty range gives `0`. -/
def npSliceLen (n s t : ℤ) : ℤ :=
  max 0 (min t n - min s n)

/-- `LabelDetector.crop_to_label` on an image of height `img_height` and
width `img_width` (the decoded `image.shape[0]` and `image.shape[1]`).
`int(w * 0.05)` is the floor, since `w ≥ 0`. -/
def crop_to_label (img_height img_width : ℕ) (bbox : ℕ × ℕ × ℕ × ℕ) :
    CropResult :=
  let (x, y, w, h) := bbox
  let padding_w : ℤ := ⌊(w : ℚ) * 0.05⌋
  let padding_h : ℤ := ⌊(h : ℚ) * 0.05⌋
  let x1 : ℤ := max 0 ((x : ℤ) - padding_w)
  let y1 : ℤ := max 0 ((y : ℤ) - padding_h)
  let w1 : ℤ := min ((img_width : ℤ) - x1) ((w : ℤ) + 2 * padding_w)
  let h1 : ℤ := min ((img_height : ℤ) - y1) ((h : ℤ) + 2 * padding_h)
  { x0 := x1
    y0 := y1
    width := npSliceLen (img_width : ℤ) x1 (x1 + w1)
    height := npSliceLen (img_height : ℤ) y1 (y1 + h1) }

/-- The dictionary built by `extract_text_with_label_detection` (and by
`_extract_text_from_image`): keys `success`, `text`, `error`,
`detection_used`, `label_found`, `bbox`, `confidence`.  Every return
path of either function produces a value of this shape. -/
structure OcrResult where
  success : Bool
  text : String
  error : String
  detection_used : Bool
  label_found : Bool
  bbox : Option (ℕ × ℕ × ℕ × ℕ)
  confidence : Option ℚ
deriving Repr, DecidableEq

/-- The initial `result` dict of `extract_text_with_label_detection`
(lines 45–53 of `ocr_with_label_detection.py`). -/
def initResult (use_detection : Bool) : OcrResult :=
  { success := false
    text := ""
    error := ""
    detection_used := use_detection
    label_found := false
    bbox := none
    confidence := none }

/-- The `try`-block body of `extract_text_with_label_detection`, with
the library steps as opaque outcomes:
* `img` — what `cv2.imread` inside `detect_shelf_labels` sees;
* `cropStep` — the tempfile creation, `crop_to_label` call and optional
  permanent save (lines 80–93);
* `cleanupStep` — the `finally` cleanup `os.remove` (lines 106–109); if
  it raises, its exception replaces the in-flight one (Python
  semantics for an exception raised in a `finally` block);
* `ocrCropped` / `ocrFull` — the dicts returned by
  `_extract_text_from_image` on the cropped temp file and on the
  original image.  That helper catches every exception itself and
  always returns a dict, so it is total here.
An error value carries the exception together with the `result` dict as
already mutated at the point the exception surfaced. -/
def ocrBody (use_detection : Bool) (strategy : String)
    (img : Option DecodedImage) (image_path : String)
    (cropStep cleanupStep : Except PyError Unit)
    (ocrCropped ocrFull : OcrResult) :
    Except (PyError × OcrResult) OcrResult :=
  let result := initResult use_detection
  if ¬ use_detection then
    -- line 58: return _extract_text_from_image(image_path, api_key)
    .ok ocrFull
  else
    match detect_shelf_labels defaultConfig img image_path with
    | .error e => .error (e, result)
    | .ok labels =>
      match labels with
      | [] =>
        -- lines 111–121: fallback to full-image OCR
        .ok { result with
              label_found := false
              success := ocrFull.success
              text := ocrFull.text
              error := ocrFull.error }
      | a :: rest =>
        -- lines 68–72: result mutated before best_label is subscripted
        match get_best_label (a :: rest) strategy with
        | none =>
          .error (⟨"TypeError", "NoneType object is not subscriptable"⟩,
                  { result with label_found := true })
        | some best =>
          let r1 := { result with
                      label_found := true
                      bbox := some best.bbox
                      confidence := some best.confidence }
          match cropStep with
          | .error e =>
            match cleanupStep with
            | .ok _ => .error (e, r1)
            | .error e2 => .error (e2, r1)
          | .ok _ =>
            let r2 := { r1 with
                        success := ocrCropped.success
                        text := ocrCropped.text
                        error := ocrCropped.error }
            match cleanupStep with
            | .error e2 => .error (e2, r2)
            | .ok _ => .ok r2

/-- `extract_text_with_label_detection`: the `try` body wrapped in the
catch-all `except Exception` handler of lines 125–128, which returns
the current `result` dict with `success = False` and
`error = f"Label detection error: {str(e)}"`. -/
def extract_text_with_label_detection (use_detection : Bool)
    (strategy : String) (img : Option DecodedImage) (image_path : String)
    (cropStep cleanupStep : Except PyError Unit)
    (ocrCropped ocrFull : OcrResult) : OcrResult :=
  match ocrBody use_detection strategy img image_path cropStep cleanupStep
      ocrCropped ocrFull with
  | .ok r => r
  | .error (e, partResult) =>
    { partResult with
      success := false
      error := "Label detection error: " ++ e.msg }

/-- Spec-side definition (from the claim wording, to compare with
`calculate_confidence`): clamp to `[0, 1]` of the weighted factor sum,
with the weights and factor formulas as the specification states
them. -/
def specConfidence (x y w h : ℕ) (aspect_ratio : ℚ)
    (img_width img_height : ℕ) (meanBrightness edgeDensity : ℚ) : ℚ :=
  let relY : ℚ := ((y + h / 2 : ℕ) : ℚ) / (img_height : ℚ)
  let relX : ℚ := ((x + w / 2 : ℕ) : ℚ) / (img_width : ℚ)
  let v : ℚ := if 0.5 ≤ relY ∧ relY ≤ 0.9 then 1 else 0.5
  let hz : ℚ := if 0.1 ≤ relX ∧ relX ≤ 0.9 then 1 else 0.5
  max 0 (min
    (0.30 * (1 - min (|aspect_ratio - 5.0| / 5.0) 1) +
     0.20 * min (meanBrightness / 200) 1 +
     0.20 * max 0 (min (1 - |edgeDensity - 0.15| / 0.15) 1) +
     0.15 * v + 0.15 * hz) 1)

/-- Spec-side definition for the `center` strategy claim: the mean
center (centroid) of all candidates in the list. -/
def centroid (l : List LabelCandidate) : ℚ × ℚ :=
  ((l.map (fun c => (c.center.1 : ℚ))).sum / (l.length : ℚ),
   (l.map (fun c => (c.center.2 : ℚ))).sum / (l.length : ℚ))

/-- Squared Euclidean distance from a candidate center to the
centroid of a candidate list.  Squared distances order points exactly
as Euclidean distances do. -/
def sqDistToCentroid (c : LabelCandidate) (l : List LabelCandidate) : ℚ :=
  ((c.center.1 : ℚ) - (centroid l).1) ^ 2 +
    ((c.center.2 : ℚ) - (centroid l).2) ^ 2

/-- Maximum `area` over a candidate list, computed as Python
`max(labels, key=...)` scans it (`0` for the empty list, which
`get_best_label` never reaches). -/
def maxAreaOf : List LabelCandidate → ℕ
  | [] => 0
  | a :: l => l.foldl (fun m c => max m c.area) a.area

/-! Helper lemmas about the CPython `max`/`min` folds. -/

theorem foldlMax_init_le (key : LabelCandidate → ℕ) :
    ∀ (l : List LabelCandidate) (i : ℕ),
      i ≤ l.foldl (fun m c => max m (key c)) i
  | [], _ => le_refl _
  | c :: l, i =>
    le_trans (le_max_left i (key c)) (foldlMax_init_le key l (max i (key c)))

theorem foldlMax_mem_le (key : LabelCandidate → ℕ) :
    ∀ (l : List LabelCandidate) (i : ℕ) (x : LabelCandidate), x ∈ l →
      key x ≤ l.foldl (fun m c => max m (key c)) i
  | c :: l, i, x, hx => by
    rcases List.mem_cons.mp hx with h | h
    · subst h
      exact le_trans (le_max_right i (key x)) (foldlMax_init_le key l _)
    · exact foldlMax_mem_le key l (max i (key c)) x h

/-- CPython `max(items, key=f)` returns the first element whose key
attains the running maximum of the keys. -/
theorem pyMaxBy_eq_find (key : LabelCandidate → ℕ) :
    ∀ (l : List LabelCandidate) (a : LabelCandidate),
      List.find? (fun x => key x == l.foldl (fun m c => max m (key c)) (key a))
          (a :: l) = some (pyMaxBy key a l)
  | [], a => by simp [pyMaxBy]
  | b :: t, a => by
    have hstep : pyMaxBy key a (b :: t) =
        pyMaxBy key (if key a < key b then b else a) t := rfl
    have hkey : key (if key a < key b then b else a) = max (key a) (key b) := by
      by_cases hab : key a < key b
      · simp [hab, Nat.max_eq_right (le_of_lt hab)]
      · simp [hab, Nat.max_eq_left (le_of_not_lt hab)]
    have hfold : (b :: t).foldl (fun m c => max m (key c)) (key a) =
        t.foldl (fun m c => max m (key c))
          (key (if key a < key b then b else a)) := by
      rw [hkey]; rfl
    rw [hstep, hfold]
    by_cases hab : key a < key b
    · have ha' : (if key a < key b then b else a) = b := if_pos hab
      rw [ha']
      have hbM : key b ≤ t.foldl (fun m c => max m (key c)) (key b) :=
        foldlMax_init_le key t (key b)
      have haM : key a ≠ t.foldl (fun m c => max m (key c)) (key b) :=
        Nat.ne_of_lt (lt_of_lt_of_le hab hbM)
      rw [ha'] at *
      rw [List.find?_cons_of_neg _ (by simpa using haM)]
      exact pyMaxBy_eq_find key t b
    · have ha' : (if key a < key b then b else a) = a := if_neg hab
      rw [ha']
      have hba : key b ≤ key a := le_of_not_lt hab
      have haM : key a ≤ t.foldl (fun m c => max m (key c)) (key a) :=
        foldlMax_init_le key t (key a)
      have ih := pyMaxBy_eq_find key t a
      by_cases heq : key a = t.foldl (fun m c => max m (key c)) (key a)
      · rw [List.find?_cons_of_pos _ (by simpa using heq)]
        rw [List.find?_cons_of_pos _ (by simpa using heq)] at ih
        exact ih
      · have haMlt : key a < t.foldl (fun m c => max m (key c)) (key a) :=
          lt_of_le_of_ne haM heq
        have hbM : key b ≠ t.foldl (fun m c => max m (key c)) (key a) :=
          Nat.ne_of_lt (lt_of_le_of_lt hba haMlt)
        rw [List.find?_cons_of_neg _ (by simpa using heq),
            List.find?_cons_of_neg _ (by simpa using hbM)]
        rw [List.find?_cons_of_neg _ (by simpa using heq)] at ih
        exact ih

/-- CPython `min(items, key=f)` keeps the running minimum and replaces
it only on a strictly smaller key; if the start key is already `0`
(the minimum of `ℕ`), the start element is returned. -/
theorem pyMinBy_key_zero (key : LabelCandidate → ℕ) :
    ∀ (l : List LabelCandidate) (a : LabelCandidate), key a = 0 →
      pyMinBy key a l = a
  | [], _, _ => rfl
  | c :: t, a, ha => by
    have hc : ¬ key c < key a := by omega
    have : pyMinBy key a (c :: t) = pyMinBy key a t := by
      simp [pyMinBy, List.foldl_cons, if_neg hc]
    rw [this]
    exact pyMinBy_key_zero key t a ha

/-- C9: `get_best_label` on an empty candidate list returns `None` for
every strategy, and does not raise. -/
theorem c9_empty_returns_none (strategy : String) :
    get_best_label [] strategy = none := rfl

/-- C7: for a non-empty candidate list and a strategy string that is
none of `largest`, `most_confident`, `center`, `get_best_label` falls
through to the final `else` and returns the first element of the
(pre-sorted) list without raising. -/
theorem c7_unknown_strategy_returns_head (a : LabelCandidate)
    (rest : List LabelCandidate) (strategy : String)
    (h1 : strategy ≠ "largest") (h2 : strategy ≠ "most_confident")
    (h3 : strategy ≠ "center") :
    get_best_label (a :: rest) strategy = some a := by
  simp [get_best_label, h1, h2, h3]

/-- Sample candidate for witness instantiations. -/
def sampleCandidate : LabelCandidate :=
  { bbox := (50, 100, 100, 20)
    confidence := 0.95
    area := 2000
    center := (100, 110)
    aspect_ratio := 5 }

/-- Witness for C7 at the unknown strategy string `"midline"`. -/
theorem c7_witness :
    get_best_label [sampleCandidate] "midline" = some sampleCandidate :=
  c7_unknown_strategy_returns_head sampleCandidate [] "midline"
    (by decide) (by decide) (by decide)

/-- C8: `get_best_label` with strategy `largest` returns a candidate of
maximal area, and among the candidates of maximal area the
first-encountered one (`List.find?` on the original list order — stable
`max` semantics). -/
theorem c8_largest_returns_first_max_area (a : LabelCandidate)
    (rest : List LabelCandidate) :
    ∃ m, get_best_label (a :: rest) "largest" = some m ∧
      m ∈ a :: rest ∧
      m.area = maxAreaOf (a :: rest) ∧
      (∀ x ∈ a :: rest, x.area ≤ maxAreaOf (a :: rest)) ∧
      List.find? (fun x => x.area == maxAreaOf (a :: rest)) (a :: rest) =
        some m := by
  refine ⟨pyMaxBy (fun c => c.area) a rest, ?_, ?_, ?_, ?_, ?_⟩
  · simp [get_best_label]
  · exact List.mem_of_find?_eq_some (pyMaxBy_eq_find (fun c => c.area) rest a)
  · have := List.find?_some (pyMaxBy_eq_find (fun c => c.area) rest a)
    simpa [maxAreaOf] using this
  · intro x hx
    rcases List.mem_cons.mp hx with h | h
    · subst h
      simpa [maxAreaOf] using foldlMax_init_le (fun c => c.area) rest x.area
    · simpa [maxAreaOf] using foldlMax_mem_le (fun c => c.area) rest a.area x h
  · simpa [maxAreaOf] using pyMaxBy_eq_find (fun c => c.area) rest a

/-- Candidates used in the `center`-strategy counterexample; only the
`center` fields matter to the strategy. -/
def candA : LabelCandidate :=
  { bbox := (0, 0, 0, 0), confidence := 0.9, area := 0,
    center := (0, 0), aspect_ratio := 0 }

def candB : LabelCandidate :=
  { bbox := (10, 0, 0, 0), confidence := 0.8, area := 0,
    center := (10, 0), aspect_ratio := 0 }

def candC : LabelCandidate :=
  { bbox := (11, 0, 0, 0), confidence := 0.7, area := 0,
    center := (11, 0), aspect_ratio := 0 }

/-- C1 (counterexample): for the list with centers `(0,0)`, `(10,0)`,
`(11,0)` the centroid is `(7,0)` and the second candidate is strictly
closer to it (squared distances `9 < 49`, so also Euclidean-closer),
yet strategy `center` returns the first candidate: the code measures
distance to `labels[0][center][0]`, not to the mean center. -/
theorem c1_counterexample :
    get_best_label [candA, candB, candC] "center" = some candA ∧
      sqDistToCentroid candB [candA, candB, candC] <
        sqDistToCentroid candA [candA, candB, candC] := by
  refine ⟨rfl, ?_⟩
  norm_num [sqDistToCentroid, centroid, candA, candB, candC]

/-- C1 (amended): strategy `center` minimizes
`abs(center_x - labels[0].center_x)` with ties to the first
encountered, so it always returns the first candidate of a non-empty
list; the centroid of the candidates plays no part. -/
theorem c1_amended_center_returns_first (a : LabelCandidate)
    (rest : List LabelCandidate) :
    get_best_label (a :: rest) "center" = some a := by
  have h : centerKey a.center.1 a = 0 := by simp [centerKey]
  have hc : get_best_label (a :: rest) "center" =
      some (pyMinBy (centerKey a.center.1) a rest) := by
    simp [get_best_label]
  rw [hc, pyMinBy_key_zero (centerKey a.center.1) rest a h]

/-! Helper lemmas about the contour pipeline. -/

/-- A contour that survives the pipeline was scored at least at the
threshold (the `continue` at line 107 of the source removed the
others). -/
theorem candidateOfContour_threshold {cfg : DetectorConfig}
    {img_width img_height : ℕ} {cont : Contour} {c : LabelCandidate}
    (h : candidateOfContour cfg img_width img_height cont = some c) :
    cfg.confidence_threshold ≤ c.confidence := by
  simp only [candidateOfContour] at h
  split_ifs at h with h1 h2
  have hc := Option.some.inj h
  rw [← hc]
  exact le_of_not_lt h2

/-- A contour that survives the pipeline passed `_is_valid_label`. -/
theorem candidateOfContour_valid {cfg : DetectorConfig}
    {img_width img_height : ℕ} {cont : Contour} {c : LabelCandidate}
    (h : candidateOfContour cfg img_width img_height cont = some c) :
    is_valid_label cfg cont.x cont.y cont.w cont.h
      (aspectRatioOf cont.w cont.h) img_width img_height = true := by
  simp only [candidateOfContour] at h
  split_ifs at h with h1 h2
  exact h1

/-- Membership in the sorted output is membership in the filtered
candidate list (`insertionSort` permutes). -/
theorem mem_detectCore_iff (cfg : DetectorConfig) (img_width img_height : ℕ)
    (contours : List Contour) (c : LabelCandidate) :
    c ∈ detectCore cfg img_width img_height contours ↔
      c ∈ contours.filterMap (candidateOfContour cfg img_width img_height) :=
  (List.perm_insertionSort confGE _).mem_iff

/-- C2: the confidence the code computes is exactly the clamped
weighted sum of the specification (given that the mean intensity of a
region is non-negative, as a mean of `uint8` pixels is), and every
candidate in a returned list has confidence at least
`confidence_threshold` — lower-scoring boxes are excluded. -/
theorem c2_confidence_formula_and_threshold :
    (∀ (x y w h : ℕ) (aspect_ratio : ℚ) (img_width img_height : ℕ)
        (meanBrightness edgeDensity : ℚ), 0 ≤ meanBrightness →
      calculate_confidence x y w h aspect_ratio img_width img_height
          meanBrightness edgeDensity =
        specConfidence x y w h aspect_ratio img_width img_height
          meanBrightness edgeDensity) ∧
    (∀ (cfg : DetectorConfig) (img_width img_height : ℕ)
        (contours : List Contour) (c : LabelCandidate),
      c ∈ detectCore cfg img_width img_height contours →
        cfg.confidence_threshold ≤ c.confidence) := by
  constructor
  · intro x y w h ar W H m d hm
    simp only [calculate_confidence, specConfidence]
    rw [show (200.0 : ℚ) = 200 from by norm_num,
        show (0.30 : ℚ) = 0.3 from by norm_num,
        show (0.20 : ℚ) = 0.2 from by norm_num]
    set rs : ℚ := 1 - min (|ar - 5.0| / 5.0) 1 with hrs
    set bs : ℚ := min (m / 200) 1 with hbs
    set es : ℚ := max 0 (min (1 - |d - 0.15| / 0.15) 1) with hes
    set v : ℚ := if 0.5 ≤ ((y + h / 2 : ℕ) : ℚ) / (H : ℚ) ∧
        ((y + h / 2 : ℕ) : ℚ) / (H : ℚ) ≤ 0.9 then 1 else 0.5 with hv
    set hz : ℚ := if 0.1 ≤ ((x + w / 2 : ℕ) : ℚ) / (W : ℚ) ∧
        ((x + w / 2 : ℕ) : ℚ) / (W : ℚ) ≤ 0.9 then 1 else 0.5 with hhz
    have h1 : (0 : ℚ) ≤ rs := by
      rw [hrs]
      have := min_le_right (|ar - 5.0| / 5.0) (1 : ℚ)
      linarith
    have h2 : (0 : ℚ) ≤ bs := le_min (by positivity) zero_le_one
    have h3 : (0 : ℚ) ≤ es := le_max_left 0 _
    have h4 : (0 : ℚ) ≤ v := by rw [hv]; split_ifs <;> norm_num
    have h5 : (0 : ℚ) ≤ hz := by rw [hhz]; split_ifs <;> norm_num
    have hsum : (0 : ℚ) ≤ rs * 0.3 + bs * 0.2 + es * 0.2 + v * 0.15 + hz * 0.15 := by
      have := mul_nonneg h1 (by norm_num : (0:ℚ) ≤ 0.3)
      have := mul_nonneg h2 (by norm_num : (0:ℚ) ≤ 0.2)
      have := mul_nonneg h3 (by norm_num : (0:ℚ) ≤ 0.2)
      have := mul_nonneg h4 (by norm_num : (0:ℚ) ≤ 0.15)
      have := mul_nonneg h5 (by norm_num : (0:ℚ) ≤ 0.15)
      linarith
    rw [show 0.3 * rs + 0.2 * bs + 0.2 * es + 0.15 * v + 0.15 * hz =
        rs * 0.3 + bs * 0.2 + es * 0.2 + v * 0.15 + hz * 0.15 from by ring]
    rw [max_eq_right (le_min hsum zero_le_one)]
  · intro cfg W H contours c hc
    rw [mem_detectCore_iff] at hc
    obtain ⟨cont, _, hsome⟩ := List.mem_filterMap.mp hc
    exact candidateOfContour_threshold hsome

/-- Concrete contour used for witnesses: a bright, well-placed
100×20 box in a 200×200 image. -/
def contW : Contour :=
  { x := 50, y := 100, w := 100, h := 20, meanBrightness := 200, edgeDensity := 0.15 }

/-- The candidate `contW` produces: every factor scores full marks, so
the confidence is `1`. -/
def candW : LabelCandidate :=
  { bbox := (50, 100, 100, 20)
    confidence := 1
    area := 2000
    center := (100, 110)
    aspect_ratio := 5 }

theorem contW_aspect : aspectRatioOf 100 20 = 5 := by
  unfold aspectRatioOf
  norm_num

theorem contW_valid :
    is_valid_label defaultConfig 50 100 100 20 (aspectRatioOf 100 20) 200 200 = true := by
  rw [contW_aspect]
  unfold is_valid_label
  rw [if_neg (by norm_num [defaultConfig]),
      if_neg (by norm_num [defaultConfig]),
      if_neg (by norm_num [defaultConfig]),
      if_neg (by norm_num)]

theorem contW_confidence :
    calculate_confidence 50 100 100 20 (aspectRatioOf 100 20) 200 200 200 0.15 = 1 := by
  rw [contW_aspect]
  simp only [calculate_confidence]
  rw [if_pos (by norm_num), if_pos (by norm_num)]
  norm_num [min_def, max_def]

theorem contW_processed :
    candidateOfContour defaultConfig 200 200 contW = some candW := by
  simp only [candidateOfContour, contW]
  rw [if_neg (by simp [contW_valid]), contW_confidence,
      if_neg (by norm_num [defaultConfig])]
  simp [candW, contW_aspect]

theorem detectCore_contW :
    detectCore defaultConfig 200 200 [contW] = [candW] := by
  simp [detectCore, contW_processed, List.insertionSort]

/-- Witness for C2: the formula identity at a concrete admissible box,
and the threshold bound for the concrete candidate `candW`, which is a
member of a concretely computed detection result. -/
theorem c2_witness :
    calculate_confidence 50 100 100 20 5 200 200 200 0.15 =
      specConfidence 50 100 100 20 5 200 200 200 0.15 ∧
    defaultConfig.confidence_threshold ≤ candW.confidence := by
  constructor
  · exact c2_confidence_formula_and_threshold.1 50 100 100 20 5 200 200 200 0.15
      (by norm_num)
  · exact c2_confidence_formula_and_threshold.2 defaultConfig 200 200 [contW]
      candW (by rw [detectCore_contW]; exact List.mem_singleton_self candW)

/-- C4: the admissibility filter accepts `(x, y, w, h)` iff the box is at
least `min_width × min_height`, its aspect ratio (`0` when `h = 0`) lies
within `[min_aspect_ratio, max_aspect_ratio]`, its width is at most
`img_width * max_width_ratio`, and its top is at or below the fixed
`0.2 * img_height` band; the result is independent of
`bottom_region_ratio`; a zero-height box has aspect ratio `0`, which
fails the aspect-ratio bounds whenever `min_aspect_ratio > 0`; and a
rejected box produces no candidate whatever brightness and edge
measurements its region would have had (no confidence enters the
decision). -/
theorem c4_admissibility_filter (cfg : DetectorConfig) (x y w h : ℕ)
    (img_width img_height : ℕ) :
    (is_valid_label cfg x y w h (aspectRatioOf w h) img_width img_height = true ↔
      (cfg.min_width ≤ w ∧ cfg.min_height ≤ h ∧
       cfg.min_aspect_ratio ≤ aspectRatioOf w h ∧
       aspectRatioOf w h ≤ cfg.max_aspect_ratio ∧
       (w : ℚ) ≤ (img_width : ℚ) * cfg.max_width_ratio ∧
       (img_height : ℚ) * 0.2 ≤ (y : ℚ))) ∧
    (∀ b : ℚ,
      is_valid_label { cfg with bottom_region_ratio := b } x y w h
          (aspectRatioOf w h) img_width img_height =
        is_valid_label cfg x y w h (aspectRatioOf w h) img_width img_height) ∧
    (h = 0 → aspectRatioOf w h = 0 ∧
      (0 < cfg.min_aspect_ratio →
        ¬ cfg.min_aspect_ratio ≤ aspectRatioOf w h)) ∧
    (is_valid_label cfg x y w h (aspectRatioOf w h) img_width img_height = false →
      ∀ meanBrightness edgeDensity : ℚ,
        candidateOfContour cfg img_width img_height
          ⟨x, y, w, h, meanBrightness, edgeDensity⟩ = none) := by
  refine ⟨?_, ?_, ?_, ?_⟩
  · constructor
    · intro hv
      unfold is_valid_label at hv
      split_ifs at hv with h1 h2 h3 h4
      push_neg at h1 h2 h3 h4
      exact ⟨h1.1, h1.2, h2.1, h2.2, h3, h4⟩
    · rintro ⟨hw, hh, har1, har2, hwr, hy⟩
      unfold is_valid_label
      rw [if_neg (by push_neg; exact ⟨hw, hh⟩),
          if_neg (by push_neg; exact ⟨har1, har2⟩),
          if_neg (not_lt.mpr hwr), if_neg (not_lt.mpr hy)]
  · intro b
    rfl
  · intro hz
    subst hz
    refine ⟨rfl, fun hpos => ?_⟩
    rw [show aspectRatioOf w 0 = 0 from rfl]
    exact not_le.mpr hpos
  · intro hfalse meanBrightness edgeDensity
    simp [candidateOfContour, hfalse]

/-- Witness for C4: a zero-height box has aspect ratio `0`, and a
narrow box (width 50 < `min_width` 100) is rejected without any
candidate being produced, for arbitrary measurement values. -/
theorem c4_witness :
    aspectRatioOf 100 0 = 0 ∧
      candidateOfContour defaultConfig 200 200
        ⟨0, 50, 50, 10, 150, 0.15⟩ = none := by
  constructor
  · exact ((c4_admissibility_filter defaultConfig 0 0 100 0 200 200).2.2.1 rfl).1
  · refine (c4_admissibility_filter defaultConfig 0 50 50 10 200 200).2.2.2 ?_ 150 0.15
    unfold is_valid_label
    rw [if_pos]
    left
    norm_num [defaultConfig]

/-! Stability of the descending insertion sort: filtering the sorted
list at any fixed confidence value gives the same sublist, in the same
order, as filtering the unsorted list. -/

theorem filter_orderedInsert (q : ℚ) (a : LabelCandidate) :
    ∀ l : List LabelCandidate,
      (List.orderedInsert confGE a l).filter (fun c => decide (c.confidence = q)) =
        if a.confidence = q then
          a :: l.filter (fun c => decide (c.confidence = q))
        else l.filter (fun c => decide (c.confidence = q))
  | [] => by
    by_cases haq : a.confidence = q <;>
      simp [List.orderedInsert, List.filter_cons, haq]
  | b :: t => by
    by_cases hab : confGE a b
    · by_cases haq : a.confidence = q <;>
        simp [List.orderedInsert, hab, List.filter_cons, haq]
    · have hlt : a.confidence < b.confidence := lt_of_not_le hab
      by_cases haq : a.confidence = q
      · have hbq : ¬ b.confidence = q := by
          intro hb
          exact absurd (hb.trans haq.symm ▸ hlt) (lt_irrefl _)
        simp only [List.orderedInsert, if_neg hab, List.filter_cons,
          decide_eq_true_eq, if_neg hbq, if_pos haq,
          filter_orderedInsert q a t]
      · simp only [List.orderedInsert, if_neg hab, List.filter_cons,
          decide_eq_true_eq, if_neg haq, filter_orderedInsert q a t]

theorem filter_insertionSort (q : ℚ) :
    ∀ l : List LabelCandidate,
      (List.insertionSort confGE l).filter (fun c => decide (c.confidence = q)) =
        l.filter (fun c => decide (c.confidence = q))
  | [] => rfl
  | a :: t => by
    simp only [List.insertionSort]
    rw [filter_orderedInsert q a (List.insertionSort confGE t),
        List.filter_cons]
    by_cases haq : a.confidence = q
    · rw [if_pos haq, filter_insertionSort q t]
      simp [haq]
    · rw [if_neg haq, filter_insertionSort q t]
      simp [haq]

/-- C3: the returned candidate list is pairwise non-increasing in
confidence; filtering at any confidence value commutes with the sort,
so equal-confidence candidates keep their original contour order
(stable sort); and if no contour qualifies (in particular if there are
none at all) the result is the empty list — the pipeline is a total
function, never an error. -/
theorem c3_sorted_stable_empty (cfg : DetectorConfig)
    (img_width img_height : ℕ) (contours : List Contour) :
    List.Pairwise (fun a b => b.confidence ≤ a.confidence)
        (detectCore cfg img_width img_height contours) ∧
    (∀ q : ℚ,
      (detectCore cfg img_width img_height contours).filter
          (fun c => decide (c.confidence = q)) =
        (contours.filterMap (candidateOfContour cfg img_width img_height)).filter
          (fun c => decide (c.confidence = q))) ∧
    ((∀ cont ∈ contours,
        candidateOfContour cfg img_width img_height cont = none) →
      detectCore cfg img_width img_height contours = []) := by
  refine ⟨?_, ?_, ?_⟩
  · exact List.sorted_insertionSort confGE
      (contours.filterMap (candidateOfContour cfg img_width img_height))
  · intro q
    exact filter_insertionSort q
      (contours.filterMap (candidateOfContour cfg img_width img_height))
  · intro hnone
    unfold detectCore
    rw [List.filterMap_eq_nil_iff.mpr hnone]
    rfl

/-- Witness for C3: a single contour whose box is far too small
qualifies nowhere, and the detection result is the empty list. -/
theorem c3_witness :
    detectCore defaultConfig 100 100 [⟨0, 0, 1, 1, 0, 0⟩] = [] := by
  refine (c3_sorted_stable_empty defaultConfig 100 100 [⟨0, 0, 1, 1, 0, 0⟩]).2.2 ?_
  intro cont hc
  rw [List.mem_singleton] at hc
  subst hc
  have hval : is_valid_label defaultConfig 0 0 1 1 (aspectRatioOf 1 1) 100 100 = false := by
    unfold is_valid_label
    rw [if_pos]
    norm_num [defaultConfig]
  simp [candidateOfContour, hval]

theorem npSliceLen_nonneg (n s t : ℤ) : 0 ≤ npSliceLen n s t :=
  le_max_left 0 _

theorem npSliceLen_le (n s t : ℤ) (hn : 0 ≤ n) (hs : 0 ≤ s) :
    npSliceLen n s t ≤ n := by
  unfold npSliceLen
  refine max_le hn ?_
  have := sub_le_sub (min_le_right t n) (le_min hs hn)
  simpa using this

/-- C5: `crop_to_label` pads the box by the truncated 5% of its own
width and height, clamps the slice start at `0`, and the NumPy slice it
takes always fits inside the image — non-negative start, realized
dimensions between `0` and the image dimensions — so it never raises;
at bbox `(10, 10, 100, 20)` on a 200×200 image the crop is the
110×22 region starting at `(5, 9)`. -/
theorem c5_crop_clamped_example (x y w h img_width img_height : ℕ) :
    0 ≤ (crop_to_label img_height img_width (x, y, w, h)).x0 ∧
    0 ≤ (crop_to_label img_height img_width (x, y, w, h)).y0 ∧
    0 ≤ (crop_to_label img_height img_width (x, y, w, h)).width ∧
    (crop_to_label img_height img_width (x, y, w, h)).width ≤ (img_width : ℤ) ∧
    0 ≤ (crop_to_label img_height img_width (x, y, w, h)).height ∧
    (crop_to_label img_height img_width (x, y, w, h)).height ≤ (img_height : ℤ) ∧
    crop_to_label 200 200 (10, 10, 100, 20) =
      { x0 := 5, y0 := 9, width := 110, height := 22 } := by
  refine ⟨?_, ?_, ?_, ?_, ?_, ?_, ?_⟩
  · exact le_max_left 0 _
  · exact le_max_left 0 _
  · exact npSliceLen_nonneg _ _ _
  · exact npSliceLen_le _ _ _ (Int.natCast_nonneg _) (le_max_left 0 _)
  · exact npSliceLen_nonneg _ _ _
  · exact npSliceLen_le _ _ _ (Int.natCast_nonneg _) (le_max_left 0 _)
  · have e1 : ⌊((100 : ℕ) : ℚ) * 0.05⌋ = (5 : ℤ) := by norm_num
    have e2 : ⌊((20 : ℕ) : ℚ) * 0.05⌋ = (1 : ℤ) := by norm_num
    simp only [crop_to_label, npSliceLen, e1, e2]
    decide

/-- C6 (counterexample): on an undecodable image the exception raised
by `detect_shelf_labels` is the builtin `ValueError` of line 61 of the
source, not an `ImageLoadError` (no such class exists anywhere in the
repository). -/
theorem c6_counterexample :
    detect_shelf_labels defaultConfig none "shelf.jpg" =
      Except.error ⟨"ValueError", "Could not read image: shelf.jpg"⟩ ∧
    "ValueError" ≠ "ImageLoadError" :=
  ⟨rfl, by decide⟩

/-- C6 (amended): if the image cannot be decoded, `detect_shelf_labels`
raises a builtin `ValueError` whose message names the offending path,
and the error propagates unhandled — also through the `detect_labels`
convenience wrapper — aborting the whole detection call with no
internal recovery or retry. -/
theorem c6_amended_valueerror_propagates (cfg : DetectorConfig)
    (image_path : String) :
    detect_shelf_labels cfg none image_path =
      Except.error ⟨"ValueError", "Could not read image: " ++ image_path⟩ ∧
    detect_labels none image_path =
      Except.error ⟨"ValueError", "Could not read image: " ++ image_path⟩ :=
  ⟨rfl, rfl⟩

/-- C10: `extract_text_with_label_detection` is total — every return
path yields the full seven-key dict (`OcrResult`), by the catch-all
handler — and whenever the `try` body raises (an undecodable image
included), the returned dict has `success = False` and an `error`
message that begins with `"Label detection error:"` and carries
`str(e)`. -/
theorem c10_never_propagates (use_detection : Bool) (strategy : String)
    (img : Option DecodedImage) (image_path : String)
    (cropStep cleanupStep : Except PyError Unit)
    (ocrCropped ocrFull : OcrResult) :
    (∀ (e : PyError) (partResult : OcrResult),
      ocrBody use_detection strategy img image_path cropStep cleanupStep
          ocrCropped ocrFull = .error (e, partResult) →
        (extract_text_with_label_detection use_detection strategy img
            image_path cropStep cleanupStep ocrCropped ocrFull).success = false ∧
        (extract_text_with_label_detection use_detection strategy img
            image_path cropStep cleanupStep ocrCropped ocrFull).error =
          "Label detection error: " ++ e.msg ∧
        ∃ rest,
          (extract_text_with_label_detection use_detection strategy img
              image_path cropStep cleanupStep ocrCropped ocrFull).error =
            "Label detection error:" ++ rest) ∧
    (use_detection = true → img = none →
      (extract_text_with_label_detection use_detection strategy img
          image_path cropStep cleanupStep ocrCropped ocrFull).success = false ∧
      (extract_text_with_label_detection use_detection strategy img
          image_path cropStep cleanupStep ocrCropped ocrFull).error =
        "Label detection error: " ++ ("Could not read image: " ++ image_path)) := by
  constructor
  · intro e partResult hbody
    unfold extract_text_with_label_detection
    rw [hbody]
    refine ⟨rfl, rfl, " " ++ e.msg, ?_⟩
    show "Label detection error: " ++ e.msg = "Label detection error:" ++ (" " ++ e.msg)
    rw [← String.append_assoc]
    congr 1
  · intro hud himg
    subst hud
    subst himg
    have hbody : ocrBody true strategy none image_path cropStep cleanupStep
        ocrCropped ocrFull =
        .error (⟨"ValueError", "Could not read image: " ++ image_path⟩,
                initResult true) := by
      unfold ocrBody
      rfl
    unfold extract_text_with_label_detection
    rw [hbody]
    exact ⟨rfl, rfl⟩

/-- Witness for C10: detection requested on an undecodable image; the
wrapper returns the failure dict instead of propagating the
`ValueError`. -/
theorem c10_witness :
    (extract_text_with_label_detection true "most_confident" none
        "missing.jpg" (.ok ()) (.ok ()) (initResult false)
        (initResult false)).success = false ∧
    (extract_text_with_label_detection true "most_confident" none
        "missing.jpg" (.ok ()) (.ok ()) (initResult false)
        (initResult false)).error =
      "Label detection error: " ++ ("Could not read image: " ++ "missing.jpg") :=
  (c10_never_propagates true "most_confident" none "missing.jpg"
    (.ok ()) (.ok ()) (initResult false) (initResult false)).2 rfl rfl
